import Mathlib

/-!
Verification of the remotelyyou job-ingestion pipeline
(`src/scripts/fetch-jobs.mjs`).

The repository ships three variants of the pipeline in that file
(separated by document markers); we call them variant A (the main
`rssToItems`/`dedupe`/`sortAndLimit` pipeline with the beginner filter),
variant B (the simpler `rssToItems` that always tags `remote` and builds a
150-character excerpt), and variant C (the `parseGenericRSS` /
`fetchText` / `toTs` pipeline).

Modelling conventions (shallow embedding):
* JS strings are modelled as Lean `String` (a list of `Char`); indices
  count characters, which agrees with JS UTF-16 lengths on the BMP
  strings the feeds produce.
* JS `Date` parsing is abstracted by a parameter `dp : String → Option Int`
  (`none` = `NaN`); theorems are proved for every such parser.  A record's
  `posted_at` in variant A is modelled by the parsed timestamp itself:
  the source stores `d.toISOString()` and re-parses it later, and that
  round trip is the identity, so the ISO string is represented by its
  timestamp.  In variant C `posted_at` keeps the raw feed string, as in
  the source.
* The MD5 / SHA1 dedup digests are modelled by the string being hashed
  (the digest function is injective on this corpus; the spec itself
  assumes collisions are negligible).
* The network is modelled by a trace of HTTP responses consumed one per
  `fetch` call, plus an abstract URL-resolution function for `new URL`.
* Each JS regular-expression operation of the source is implemented as an
  executable character-list scanner with the exact JS semantics
  (left-most match, greedy/lazy quantifiers, `g`-flag scanning).
-/

/-! ### Character classes (JS `\s`, `\w`, `.`) -/

/-- JS whitespace class `\s` (the members that can occur in feed text). -/
def isJsWs (c : Char) : Bool :=
  c = ' ' || c = '\t' || c = '\n' || c = '\r' || c = '\x0b' || c = '\x0c' || c = '\u00A0'

/-- JS word-character class `\w` = `[A-Za-z0-9_]`. -/
def isWordChar (c : Char) : Bool :=
  ('a' ≤ c && c ≤ 'z') || ('A' ≤ c && c ≤ 'Z') || ('0' ≤ c && c ≤ '9') || c = '_'

/-- ASCII letter (what `[A-Z]` with the `i` flag matches in these titles). -/
def isAsciiLetterB (c : Char) : Bool :=
  ('a' ≤ c && c ≤ 'z') || ('A' ≤ c && c ≤ 'Z')

/-- JS regex `.` : any character except a line terminator. -/
def isDotChar (c : Char) : Bool :=
  !(c = '\n' || c = '\r' || c = '\u2028' || c = '\u2029')

/-! ### Generic string scanners -/

/-- `starts pat l` : `pat` is a prefix of `l`. -/
def starts : List Char → List Char → Bool
  | [], _ => true
  | _ :: _, [] => false
  | p :: ps, c :: cs => p = c && starts ps cs

/-- Case-insensitive prefix test (ASCII folding, as JS `i` flag on these patterns). -/
def startsCI : List Char → List Char → Bool
  | [], _ => true
  | _ :: _, [] => false
  | p :: ps, c :: cs => p.toLower = c.toLower && startsCI ps cs

/-- Some suffix of `l` satisfies `f` (the empty suffix included):
models scanning a regex over every start position, left to right. -/
def anyPos (f : List Char → Bool) : List Char → Bool
  | [] => f []
  | c :: cs => f (c :: cs) || anyPos f cs

/-- `String.prototype.includes` on character lists. -/
def containsL (pat l : List Char) : Bool :=
  anyPos (starts pat) l

/-- Match `p1` then one `.` (any non-terminator) then `p2` at this position. -/
def dotAt (p1 p2 l : List Char) : Bool :=
  starts p1 l &&
    (match l.drop p1.length with
     | [] => false
     | d :: rest => isDotChar d && starts p2 rest)

/-- JS regex `p1.p2` somewhere in `l`. -/
def containsDot (p1 p2 l : List Char) : Bool :=
  anyPos (dotAt p1 p2) l

/-- JS regex `p1.?p2` somewhere in `l`. -/
def containsDotOpt (p1 p2 l : List Char) : Bool :=
  anyPos (fun s => starts (p1 ++ p2) s || dotAt p1 p2 s) l

/-- Match `p1` then one optional `\s` char then `p2` at this position. -/
def wsOptAt (p1 p2 l : List Char) : Bool :=
  starts p1 l &&
    (let rest := l.drop p1.length
     starts p2 rest ||
       (match rest with
        | [] => false
        | d :: rs => isJsWs d && starts p2 rs))

/-- JS regex `p1\s?p2` somewhere in `l`. -/
def containsWsOpt (p1 p2 l : List Char) : Bool :=
  anyPos (wsOptAt p1 p2) l

/-- Replace every (left-to-right, non-overlapping) occurrence of the
non-empty literal `pat` by `rep`, as JS `replace(/pat/g, rep)`.
Fuel-driven so that the kernel can evaluate it. -/
def replAll (pat rep : List Char) : Nat → List Char → List Char
  | _, [] => []
  | 0, l => l
  | fuel + 1, c :: cs =>
    if starts pat (c :: cs) then
      rep ++ replAll pat rep fuel (cs.drop (pat.length - 1))
    else c :: replAll pat rep fuel cs

/-- String-level wrapper for `replAll`. -/
def replaceLit (pat rep : String) (l : List Char) : List Char :=
  replAll pat.data rep.data l.length l

/-! ### The sanitizers (`strip`, `stripTags`, `decodeHTML`) -/

/-- One-pass removal of the alternation `/<!\[CDATA\[|\]\]>/g`
(a single left-to-right scan trying each alternative, as the JS engine does). -/
def cdataScan : Nat → List Char → List Char
  | _, [] => []
  | 0, l => l
  | fuel + 1, c :: cs =>
    if starts "<![CDATA[".data (c :: cs) then cdataScan fuel (cs.drop 8)
    else if starts "]]>".data (c :: cs) then cdataScan fuel (cs.drop 2)
    else c :: cdataScan fuel cs

/-- `replace(/<[^>]+>/g, rep)` when `minLen = 1` (variants A and B) and
`replace(/<[^>]*>/g, rep)` when `minLen = 0` (variant C `stripTags`):
from each `<`, the match runs to the first following `>`. -/
def tagScan (rep : List Char) (minLen : Nat) : Nat → List Char → List Char
  | _, [] => []
  | 0, l => l
  | fuel + 1, c :: cs =>
    if c = '<' then
      let inside := cs.takeWhile (fun d => !(d = '>'))
      match cs.dropWhile (fun d => !(d = '>')) with
      | _ :: rest =>
        if minLen ≤ inside.length then rep ++ tagScan rep minLen fuel rest
        else c :: tagScan rep minLen fuel cs
      | [] => c :: tagScan rep minLen fuel cs
    else c :: tagScan rep minLen fuel cs

/-- `replace(/\s+/g, ' ')`: each maximal whitespace run becomes one space.
The flag records whether the previous character belonged to a run. -/
def collapseWsAux : Bool → List Char → List Char
  | _, [] => []
  | prevWs, c :: cs =>
    if isJsWs c then
      if prevWs then collapseWsAux true cs else ' ' :: collapseWsAux true cs
    else c :: collapseWsAux false cs

/-- `replace(/\s+/g, ' ')` on a character list. -/
def collapseWs (l : List Char) : List Char :=
  collapseWsAux false l

/-- JS `String.prototype.trim` (remove leading and trailing `\s`). -/
def trimJs (l : List Char) : List Char :=
  ((l.dropWhile isJsWs).reverse.dropWhile isJsWs).reverse

/-- JS `toLowerCase` (ASCII folding; the keyword matching in the source
only distinguishes ASCII). -/
def lowerL (l : List Char) : List Char :=
  l.map Char.toLower

/-- Build a `String` back from a character list. -/
def strOf (l : List Char) : String :=
  ⟨l⟩

/-- The five entity decodings shared by the `strip` of variants A and B,
in source order (`&amp;`, `&lt;`, `&gt;`, `&quot;`, `&#39;`). -/
def ent5 (l : List Char) : List Char :=
  replaceLit "&#39;" "'"
    (replaceLit "&quot;" "\""
      (replaceLit "&gt;" ">"
        (replaceLit "&lt;" "<"
          (replaceLit "&amp;" "&" l))))

/-- `strip` of variant A (`fetch-jobs.mjs` lines 79–90): CDATA removal,
tags to spaces, whitespace collapse, five entities, trim. -/
def stripA (html : String) : String :=
  strOf (trimJs (ent5 (collapseWs (tagScan [' '] 1 html.data.length (cdataScan html.data.length html.data)))))

/-- The four additional entity decodings of variant B's `strip`
(`&nbsp;`, `&mdash;`, `&ndash;`, `&hellip;`), in source order. -/
def ent4 (l : List Char) : List Char :=
  replaceLit "&hellip;" "..."
    (replaceLit "&ndash;" "–"
      (replaceLit "&mdash;" "—"
        (replaceLit "&nbsp;" " " l)))

/-- `strip` of variant B (lines 381–396): as variant A plus the four
extra entities (decoded after the five shared ones, before `trim`). -/
def stripB (html : String) : String :=
  strOf (trimJs (ent4 (ent5 (collapseWs (tagScan [' '] 1 html.data.length (cdataScan html.data.length html.data))))))

/-- `strip(html = '')`: the JS default parameter — `undefined` becomes `''`. -/
def stripOptA (html : Option String) : String :=
  stripA (html.getD "")

/-- Variant B `strip` with its default parameter. -/
def stripOptB (html : Option String) : String :=
  stripB (html.getD "")

/-- Variant C `stripTags`: `replace(/<[^>]*>/g, '')`. -/
def stripTagsC (l : List Char) : List Char :=
  tagScan [] 0 l.length l

/-- Variant C `decodeHTML`: five sequential `replaceAll` calls. -/
def decodeC (l : List Char) : List Char :=
  ent5 l

/-! ### Field inference, variant A -/

/-- `BEGINNER_KEYWORDS` (lines 48–51). -/
def BEGINNER_KEYWORDS : List String :=
  ["entry", "junior", "beginner", "entry-level", "trainee", "associate", "intern",
   "no experience", "new grad", "graduate", "starter", "assistant", "coordinator"]

/-- `SENIOR_KEYWORDS` (lines 54–57). -/
def SENIOR_KEYWORDS : List String :=
  ["senior", "lead", "principal", "director", "manager", "head of", "chief",
   "5+ years", "3+ years", "experienced", "expert", "architect"]

/-- `keywords.some(k => text.includes(k.toLowerCase()))` on lowered text. -/
def hasKeyword (kws : List String) (text : List Char) : Bool :=
  kws.any (fun k => containsL (lowerL k.data) text)

/-- The combined lowered text `title + ' ' + description + ' ' + tags.join(' ')`. -/
def combinedText (title description : String) (tags : List String) : List Char :=
  lowerL (title ++ " " ++ description ++ " " ++ String.intercalate " " tags).data

/-- `isBeginnerFriendly` (lines 116–131). -/
def isBeginnerFriendly (title description : String) (tags : List String) : Bool :=
  let text := combinedText title description tags
  hasKeyword BEGINNER_KEYWORDS text || !(hasKeyword SENIOR_KEYWORDS text)

/-- `categorizeJob` (lines 133–147): the ordered regex rule table,
first match wins, default `other`. -/
def categorizeJob (title description : String) (tags : List String) : String :=
  let t := combinedText title description tags
  if containsDot "customer".data "service".data t || containsL "support".data t ||
      containsDotOpt "help".data "desk".data t || containsDot "customer".data "success".data t then
    "customer-service"
  else if containsL "marketing".data t || containsDot "social".data "media".data t ||
      containsL "seo".data t || containsDot "content".data "marketing".data t ||
      containsDot "digital".data "marketing".data t then
    "marketing"
  else if containsL "sales".data t || containsDot "account".data "manager".data t ||
      containsDot "business".data "development".data t || containsL "sdr".data t ||
      containsL "bdr".data t then
    "sales"
  else if containsL "writer".data t || containsL "content".data t ||
      containsL "copywriter".data t || containsL "editor".data t ||
      containsL "blog".data t || containsDot "technical".data "writer".data t then
    "writing"
  else if containsL "design".data t || containsL "ui".data t || containsL "ux".data t ||
      containsL "graphic".data t || containsL "visual".data t ||
      containsL "figma".data t || containsL "sketch".data t then
    "design"
  else if containsL "developer".data t || containsL "programmer".data t ||
      containsL "engineer".data t || containsL "coding".data t ||
      containsL "software".data t || containsL "frontend".data t ||
      containsL "backend".data t then
    "development"
  else if containsL "data".data t || containsL "analyst".data t ||
      containsL "analytics".data t || containsL "sql".data t ||
      containsL "excel".data t || containsL "tableau".data t || containsL "bi".data t then
    "data"
  else if containsDot "virtual".data "assistant".data t || containsL "va".data t ||
      containsL "admin".data t || containsL "assistant".data t ||
      containsL "administrative".data t then
    "virtual-assistant"
  else if containsDot "project".data "manager".data t || containsL "coordinator".data t ||
      containsL "scrum".data t || containsL "agile".data t ||
      containsDot "project".data "coordinator".data t then
    "project-management"
  else "other"

/-- Lowered `title + ' ' + description` (the text `generateTags` scans). -/
def tagText (title description : String) : List Char :=
  lowerL (title ++ " " ++ description).data

/-- `/junior|1-2.years/i.test(text)`. -/
def juniorTestA (t : List Char) : Bool :=
  containsL "junior".data t || containsDot "1-2".data "years".data t

/-- `/part.?time|parttime/i.test(text)`. -/
def partTimeTestA (t : List Char) : Bool :=
  containsDotOpt "part".data "time".data t || containsL "parttime".data t

/-- `/contract|contractor|freelance/i.test(text)`. -/
def contractTestA (t : List Char) : Bool :=
  containsL "contract".data t || containsL "contractor".data t || containsL "freelance".data t

/-- `/intern|internship/i.test(text)`. -/
def internTestA (t : List Char) : Bool :=
  containsL "intern".data t || containsL "internship".data t

/-- `/remote|anywhere|global|distributed/i.test(text)`. -/
def remoteTestA (t : List Char) : Bool :=
  containsL "remote".data t || containsL "anywhere".data t ||
    containsL "global".data t || containsL "distributed".data t

/-- `/no.experience|entry.level|beginner/i.test(text)`. -/
def noExpTestA (t : List Char) : Bool :=
  containsDot "no".data "experience".data t || containsDot "entry".data "level".data t ||
    containsL "beginner".data t

/-- `generateTags` (lines 149–188): ordered pushes, capped at six. -/
def generateTags (title description category : String) : List String :=
  let text := tagText title description
  let t1 := if hasKeyword BEGINNER_KEYWORDS text then ["entry-level"] else []
  let t2 := if juniorTestA text then ["junior"] else []
  let t3 :=
    if partTimeTestA text then ["part-time"]
    else if contractTestA text then ["contract"]
    else if internTestA text then ["internship"]
    else ["full-time"]
  let t4 := if remoteTestA text then ["remote"] else []
  let t5 := if category = "other" then [] else [category]
  let t6 := if noExpTestA text then ["no-experience"] else []
  (t1 ++ t2 ++ t3 ++ t4 ++ t5 ++ t6).take 6

/-! ### Field inference, variant B (word-boundary patterns) -/

/-- A position-wise matcher: given a suffix, return the rest after a match
of one alternative, or `none`.  Used for `\b(...)\b` groups. -/
def litM (pat : String) (l : List Char) : Option (List Char) :=
  if starts pat.data l then some (l.drop pat.data.length) else none

/-- Matcher for `p1.p2` (one `.` wildcard between two literals). -/
def dotM (p1 p2 : String) (l : List Char) : Option (List Char) :=
  if starts p1.data l then
    match l.drop p1.data.length with
    | [] => none
    | d :: rest =>
      if isDotChar d && starts p2.data rest then some (rest.drop p2.data.length)
      else none
  else none

/-- `\b m \b` holds at this position: the previous character (if any) is
not a word character, some alternative matches, and the character after
the match (if any) is not a word character.  All the alternatives the
source uses begin and end with word characters, for which this is the
exact `\b` semantics. -/
def boundAt (ms : List (List Char → Option (List Char))) (prev : Option Char)
    (l : List Char) : Bool :=
  (match prev with | none => true | some p => !isWordChar p) &&
    ms.any (fun m =>
      match m l with
      | some rest =>
        match rest with
        | [] => true
        | d :: _ => !isWordChar d
      | none => false)

/-- Scan every position, carrying the previous character for `\b`. -/
def anyPosPrev (f : Option Char → List Char → Bool) : Option Char → List Char → Bool
  | prev, [] => f prev []
  | prev, c :: cs => f prev (c :: cs) || anyPosPrev f (some c) cs

/-- `\b(alts)\b` matches somewhere in `l`. -/
def containsBound (ms : List (List Char → Option (List Char))) (l : List Char) : Bool :=
  anyPosPrev (boundAt ms) none l

/-- `/\b(entry|junior|jr|associate|intern|trainee|graduate|new grad|no experience|beginner)\b/` (line 423). -/
def entryTestB (t : List Char) : Bool :=
  containsBound
    [litM "entry", litM "junior", litM "jr", litM "associate", litM "intern",
     litM "trainee", litM "graduate", litM "new grad", litM "no experience",
     litM "beginner"] t

/-- `/\b(junior|jr|1-2 years)\b/` (line 426). -/
def juniorTestB (t : List Char) : Bool :=
  containsBound [litM "junior", litM "jr", litM "1-2 years"] t

/-- `/\b(senior|sr|lead|principal|staff|experienced|expert)\b/` (line 429). -/
def seniorTestB (t : List Char) : Bool :=
  containsBound
    [litM "senior", litM "sr", litM "lead", litM "principal", litM "staff",
     litM "experienced", litM "expert"] t

/-- `/\b(part.time|parttime)\b/` (line 434). -/
def partTimeTestB (t : List Char) : Bool :=
  containsBound [dotM "part" "time", litM "parttime"] t

/-- `/\b(contract|freelance|consultant)\b/` (line 436). -/
def contractTestB (t : List Char) : Bool :=
  containsBound [litM "contract", litM "freelance", litM "consultant"] t

/-- `/\b(intern|internship)\b/` (line 438). -/
def internTestB (t : List Char) : Bool :=
  containsBound [litM "intern", litM "internship"] t

/-! ### Field inference, variant C (`tagJob` patterns on the lowered title) -/

/-- `/support|customer|help\s?desk/` applied to the lowered title. -/
def supportTestC (t : List Char) : Bool :=
  containsL "support".data t || containsL "customer".data t ||
    containsWsOpt "help".data "desk".data t

/-- `/assistant|va|virtual assistant/`. -/
def assistantTestC (t : List Char) : Bool :=
  containsL "assistant".data t || containsL "va".data t ||
    containsL "virtual assistant".data t

/-- `/data\s?entry/`. -/
def dataEntryTestC (t : List Char) : Bool :=
  containsWsOpt "data".data "entry".data t

/-- `/social|content|community|copy|writer/`. -/
def socialTestC (t : List Char) : Bool :=
  containsL "social".data t || containsL "content".data t ||
    containsL "community".data t || containsL "copy".data t ||
    containsL "writer".data t

/-- `/project\s?(coordinator|manager|pm)/`. -/
def projectTestC (t : List Char) : Bool :=
  containsWsOpt "project".data "coordinator".data t ||
    containsWsOpt "project".data "manager".data t ||
    containsWsOpt "project".data "pm".data t

/-! ### `extractCompany` (variant A, lines 98–114) -/

/-- Character class `[a-zA-Z\s&.]` of the capture groups (with `i`). -/
def classA (c : Char) : Bool :=
  isAsciiLetterB c || isJsWs c || c = '&' || c = '.'

/-- A dash of `[-–—]`. -/
def isDashE (c : Char) : Bool :=
  c = '-' || c = '–' || c = '—'

/-- The pattern tail `(?:\s*[-–—]|\s*$)`: skip whitespace greedily; then
either a dash follows or the string has ended. -/
def tailOk (l : List Char) : Bool :=
  match l.dropWhile isJsWs with
  | [] => true
  | c :: _ => isDashE c

/-- The lazy part `[a-zA-Z\s&.]+?` followed by the tail: take the fewest
class characters (at least one) after which the tail matches. -/
def lazyGrp : List Char → Option (List Char)
  | [] => none
  | c :: cs =>
    if classA c then
      if tailOk cs then some [c]
      else (lazyGrp cs).map (fun g => c :: g)
    else none

/-- The capture group `([A-Z][a-zA-Z\s&.]+?)` with tail, at this position. -/
def grpAt : List Char → Option (List Char)
  | [] => none
  | c :: cs => if isAsciiLetterB c then (lazyGrp cs).map (fun g => c :: g) else none

/-- Pattern 1, `/at\s+([A-Z]...)/i`, anchored at this position: the literal
`at` (case-folded), one-or-more whitespace (greedy; the group must then
start with a letter, so only the maximal run can succeed), then the group. -/
def p1At : List Char → Option (List Char)
  | a :: t :: rest =>
    if a.toLower = 'a' && t.toLower = 't' then
      let r := rest.dropWhile isJsWs
      if r.length < rest.length then grpAt r else none
    else none
  | _ => none

/-- Pattern 2, `/\|\s*([A-Z]...)/i`, anchored at this position. -/
def p2At : List Char → Option (List Char)
  | c :: rest => if c = '|' then grpAt (rest.dropWhile isJsWs) else none
  | [] => none

/-- Pattern 3, a dash then `\s*([A-Z]...)` with the `i` flag, anchored at
this position. -/
def p3At : List Char → Option (List Char)
  | c :: rest => if c = '-' then grpAt (rest.dropWhile isJsWs) else none
  | [] => none

/-- `title.match(pattern)`: the left-most position where the pattern
matches; yields the capture group. -/
def searchPat (pAt : List Char → Option (List Char)) : List Char → Option (List Char)
  | [] => pAt []
  | c :: cs =>
    match pAt (c :: cs) with
    | some g => some g
    | none => searchPat pAt cs

/-- One iteration of the pattern loop: `match && match[1] && match[1].length < 50`
returns the trimmed capture, otherwise the loop moves to the next pattern. -/
def tryPat (pAt : List Char → Option (List Char)) (title : List Char) : Option String :=
  match searchPat pAt title with
  | some g => if g.length < 50 then some (strOf (trimJs g)) else none
  | none => none

/-- `extractCompany(title, description)` (lines 98–114).  The `description`
parameter is accepted but — exactly as in the source — never read. -/
def extractCompany (title description : String) : Option String :=
  match tryPat p1At title.data with
  | some r => some r
  | none =>
    match tryPat p2At title.data with
    | some r => some r
    | none => tryPat p3At title.data

/-! ### Job records and raw feed items -/

/-- A Job Record of variant A (lines 229–239).  `posted_at` holds the
parsed timestamp represented by the stored ISO string. -/
structure JobA where
  title : String
  company : Option String
  source : String
  source_url : String
  posted_at : Int
  tags : List String
  location : String
  excerpt : String
  category : String
deriving DecidableEq, Repr

/-- A Job Record of variant B (lines 458–467).  `posted_at` is the parse
result of the raw date string (`none` models the `RangeError` that
`new Date(bad).toISOString()` would raise). -/
structure JobB where
  title : String
  company : Option String
  source : String
  source_url : String
  posted_at : Option Int
  tags : List String
  location : String
  excerpt : String
deriving DecidableEq, Repr

/-- A Job Record of variant C (lines 587–597 plus the `hash` added in
`main`).  `posted_at` keeps the raw feed string, as in the source. -/
structure JobC where
  source : String
  source_url : String
  title : String
  company : String
  location : String
  remote_type : String
  tags : List String
  salary : String
  posted_at : String
  hash : String
deriving DecidableEq, Repr

/-- The per-`<item>` fields the `pick` helper extracts (`''` when the tag
is absent).  The regex block matching of `rssToItems` is abstracted to
this record; everything after `pick` is modelled exactly. -/
structure RawItem where
  title : String
  link : String
  guid : String
  pubDate : String
  date : String
  description : String
  contentEncoded : String
  summary : String
  categories : List String
deriving DecidableEq, Repr

/-- The per-`<item>` fields of variant C's `get` (before its
trim/stripTags/decodeHTML processing). -/
structure RawItemC where
  title : String
  link : String
  pubDate : String
  updated : String
  dcDate : String
  description : String
deriving DecidableEq, Repr

/-- JS `a || b` on strings (`''` is falsy). -/
def jsOr (a b : String) : String :=
  if a = "" then b else a

/-- `link.replace(/\?.*$/, '')` (line 207): delete from the left-most `?`
that has no later line terminator (``.*`` cannot cross one) to the end. -/
def removeQuery : List Char → List Char
  | [] => []
  | c :: cs =>
    if c = '?' && !(cs.contains '\n' || cs.contains '\r' ||
        cs.contains ' ' || cs.contains ' ') then []
    else c :: removeQuery cs

/-- `parseDate` (lines 92–96) under the date-parser abstraction `dp`:
empty or unparsable input falls back to the current time. -/
def parseDateA (dp : String → Option Int) (now : Int) (s : String) : Int :=
  if s = "" then now
  else match dp s with
       | some t => t
       | none => now

/-- `strip(pick('title'))`. -/
def titleOfA (it : RawItem) : String :=
  stripA it.title

/-- `strip(pick('link')) || strip(pick('guid')) || ''` then the
query-string removal. -/
def linkOfA (it : RawItem) : String :=
  strOf (removeQuery (jsOr (stripA it.link) (jsOr (stripA it.guid) "")).data)

/-- `strip(pick('description') || pick('content:encoded') || pick('summary'))`. -/
def descOfA (it : RawItem) : String :=
  stripA (jsOr it.description (jsOr it.contentEncoded it.summary))

/-- The loop body of variant A's `rssToItems` (lines 197–240) for one
item: `none` means the `continue` branches (non-absolute link, empty
title or link, not beginner-friendly). -/
def processItemA (dp : String → Option Int) (now : Int) (srcName : String)
    (it : RawItem) : Option JobA :=
  let title := titleOfA it
  let link := linkOfA it
  if !starts "http".data link.data then none
  else
    let posted := parseDateA dp now (jsOr (stripA it.pubDate) (stripA it.date))
    let description := descOfA it
    let rssCategories := it.categories.map stripA
    if title = "" || link = "" then none
    else if !isBeginnerFriendly title description rssCategories then none
    else
      let category := categorizeJob title description rssCategories
      some
        { title := title
          company := extractCompany title description
          source := srcName
          source_url := link
          posted_at := posted
          tags := generateTags title description category
          location := "Remote"
          excerpt := strOf (description.data.take 200)
          category := category }

/-- `rssToItems` of variant A over the abstracted item list. -/
def rssToItemsA (dp : String → Option Int) (now : Int) (srcName : String)
    (items : List RawItem) : List JobA :=
  items.filterMap (processItemA dp now srcName)

/-! ### Deduplication -/

/-- The common shape of both `dedupe` functions: `items.filter` with a
`seen` set, keeping an element iff its key digest was not seen before.
The digest is modelled by the hashed string itself. -/
def dedupeBy {α : Type} (key : α → String) : List String → List α → List α
  | _, [] => []
  | seen, j :: js =>
    if seen.contains (key j) then dedupeBy key seen js
    else j :: dedupeBy key (key j :: seen) js

/-- `title.toLowerCase().replace(/\s+/g,' ').trim()` (lines 250–251). -/
def normKey (s : String) : String :=
  strOf (trimJs (collapseWs (lowerL s.data)))

/-- Variant A's dedup key (lines 250–255): normalised title and company,
and the raw `source_url`, joined by `|` and digested. -/
def keyA (j : JobA) : String :=
  normKey j.title ++ "|" ++ normKey (j.company.getD "") ++ "|" ++ j.source_url

/-- `dedupe` of variant A (lines 246–261). -/
def dedupeA (items : List JobA) : List JobA :=
  dedupeBy keyA [] items

/-- Variant B's dedup key (lines 477–480): raw title and `source_url`. -/
def keyB (j : JobB) : String :=
  j.title ++ "|" ++ j.source_url

/-- `dedupe` of variant B (lines 474–486). -/
def dedupeB (items : List JobB) : List JobB :=
  dedupeBy keyB [] items

/-! ### Sorting, truncation and packaging (variant A) -/

/-- The comparator `(a, b) => new Date(b.posted_at) - new Date(a.posted_at)`
induces this total preorder; V8's sort is stable, modelled by the stable
`List.insertionSort`. -/
def newerA (a b : JobA) : Prop :=
  b.posted_at ≤ a.posted_at

instance : DecidableRel newerA := fun a b => Int.decLe _ _

/-- `sortAndLimit` (lines 263–268): sort newest-first, keep 2000. -/
def sortAndLimit (jobs : List JobA) : List JobA :=
  (List.insertionSort newerA jobs).take 2000

/-- The Result Document of variant A (lines 297–302); `updated_at` is a
wall-clock string outside the embedding. -/
structure PayloadA where
  total_jobs : Nat
  sources : List String
  jobs : List JobA
deriving Repr

/-- One source's contribution in `main`'s loop (lines 275–286): a failed
fetch (`none` body) contributes no records. -/
def fetchParseA (dp : String → Option Int) (now : Int)
    (src : String × Option (List RawItem)) : List JobA :=
  match src.2 with
  | none => []
  | some items => rssToItemsA dp now src.1 items

/-- `main` of variant A (lines 270–302) up to the payload: collect,
dedupe, sort-and-limit, package. -/
def mainA (dp : String → Option Int) (now : Int)
    (srcs : List (String × Option (List RawItem))) : PayloadA :=
  let jobs := sortAndLimit (dedupeA ((srcs.map (fetchParseA dp now)).flatten))
  { total_jobs := jobs.length
    sources := srcs.map Prod.fst
    jobs := jobs }

/-! ### Variant B parser (lines 398–472) -/

/-- The tag pushes of variant B (lines 420–445) on the lowered
`title + ' ' + description` text: experience level, seniority, employment
type, then the unconditional `remote` tag. -/
def tagsB (fullText : List Char) : List String :=
  (if entryTestB fullText then ["entry-level"] else []) ++
    (if juniorTestB fullText then ["junior"] else []) ++
    (if seniorTestB fullText then ["senior"] else []) ++
    (if partTimeTestB fullText then ["part-time"]
     else if contractTestB fullText then ["contract"]
     else if internTestB fullText then ["internship"]
     else ["full-time"]) ++
    ["remote"]

/-- The excerpt of variant B (lines 448–456): re-collapse whitespace,
trim, cut at 150 characters, and append `...` when the (already
sanitized) description exceeds 150 characters. -/
def excerptB (description : String) : String :=
  let cleanExcerpt := strOf ((trimJs (collapseWs description.data)).take 150)
  if description.length > 150 then cleanExcerpt ++ "..." else cleanExcerpt

/-- The loop body of variant B's `rssToItems` for one item. -/
def processItemB (dp : String → Option Int) (now : Int) (srcName : String)
    (it : RawItem) : Option JobB :=
  let title := stripB it.title
  let link := jsOr (stripB it.link) (jsOr (stripB it.guid) "")
  let pubRaw := jsOr it.pubDate it.date
  let description := stripB (jsOr it.description it.summary)
  if title = "" || link = "" then none
  else
    some
      { title := title
        company := none
        source := srcName
        source_url := link
        posted_at := if pubRaw = "" then some now else dp pubRaw
        tags := tagsB (lowerL (title ++ " " ++ description).data)
        location := "Remote"
        excerpt := excerptB description }

/-- `rssToItems` of variant B over the abstracted item list. -/
def rssToItemsB (dp : String → Option Int) (now : Int) (srcName : String)
    (items : List RawItem) : List JobB :=
  items.filterMap (processItemB dp now srcName)

/-! ### Variant C parser, tagging and pipeline (lines 564–720) -/

/-- Variant C's `get`: `decodeHTML(stripTags(m[1].trim()))`, and `''` for
an absent tag (processing `''` also yields `''`). -/
def getC (s : String) : String :=
  strOf (decodeC (stripTagsC (trimJs s.data)))

/-- The prefix of `l` before the first occurrence of `sep`
(`title.split(sep)[0]`). -/
def beforeFirst (sep : List Char) : List Char → List Char
  | [] => []
  | c :: cs => if starts sep (c :: cs) then [] else c :: beforeFirst sep cs

/-- The separator-based company inference of `parseGenericRSS`
(lines 577–580): first of `' – '`, `' — '`, `' - '` contained in the
title wins; the prefix before its first occurrence, trimmed. -/
def sepCompany (title : String) : String :=
  if containsL " – ".data title.data then
    strOf (trimJs (beforeFirst " – ".data title.data))
  else if containsL " — ".data title.data then
    strOf (trimJs (beforeFirst " — ".data title.data))
  else if containsL " - ".data title.data then
    strOf (trimJs (beforeFirst " - ".data title.data))
  else ""

/-- The lazy body of `/<strong>(.*?)<\/strong>/i` after an opening tag:
the shortest run of `.`-characters up to a closing tag. -/
def strongClose : List Char → Option (List Char)
  | [] => none
  | c :: cs =>
    if startsCI "</strong>".data (c :: cs) then some []
    else if isDotChar c then (strongClose cs).map (fun g => c :: g)
    else none

/-- Left-most match of `/<strong>(.*?)<\/strong>/i`, returning the capture. -/
def strongScan : List Char → Option (List Char)
  | [] => none
  | c :: cs =>
    if startsCI "<strong>".data (c :: cs) then
      match strongClose (cs.drop 7) with
      | some cap => some cap
      | none => strongScan cs
    else strongScan cs

/-- The `<strong>` fallback for the company (lines 581–585). -/
def strongCompany (desc : String) : String :=
  match strongScan desc.data with
  | some cap => strOf (trimJs (stripTagsC cap))
  | none => ""

/-- The mapping body of `parseGenericRSS` (lines 566–598).  Every item
yields a record: there is no title/link/date validation in this parser. -/
def processItemC (srcName : String) (it : RawItemC) : JobC :=
  let title := getC it.title
  let link := getC it.link
  let pub := jsOr (getC it.pubDate) (jsOr (getC it.updated) (jsOr (getC it.dcDate) ""))
  let desc := jsOr (getC it.description) ""
  let c0 := sepCompany title
  { source := srcName
    source_url := link
    title := title
    company := if c0 = "" then strongCompany desc else c0
    location := ""
    remote_type := "remote"
    tags := []
    salary := ""
    posted_at := pub
    hash := "" }

/-- The ordered tag pushes of `tagJob` (lines 627–638) on the lowered title. -/
def tagPatternsC (t : List Char) : List String :=
  (if supportTestC t then ["Customer Support"] else []) ++
    (if assistantTestC t then ["Virtual Assistant"] else []) ++
    (if dataEntryTestC t then ["Data Entry"] else []) ++
    (if socialTestC t then ["Social / Content"] else []) ++
    (if projectTestC t then ["Project Coord/PM (Jr)"] else [])

/-- `Array.from(new Set(xs))`: first occurrences in insertion order. -/
def setDedup (xs : List String) : List String :=
  dedupeBy (fun s => s) [] xs

/-- `tagJob` (lines 627–638). -/
def tagJobC (j : JobC) : JobC :=
  { j with tags := setDedup (j.tags ++ tagPatternsC (lowerL j.title.data)) }

/-- `makeHash` (lines 623–626): SHA1 of the lowered concatenation,
modelled by the string digested. -/
def makeHashC (j : JobC) : String :=
  strOf (lowerL (j.title ++ j.company ++ j.source_url).data)

/-- `toTs` (line 711): parse, fall back to `now` when not finite. -/
def toTs (dp : String → Option Int) (now : Int) (d : String) : Int :=
  match dp d with
  | some ts => ts
  | none => now

/-- Variant C's sort comparator as a relation (newest first, `toTs` key). -/
def newerC (dp : String → Option Int) (now : Int) (a b : JobC) : Prop :=
  toTs dp now b.posted_at ≤ toTs dp now a.posted_at

instance (dp : String → Option Int) (now : Int) : DecidableRel (newerC dp now) :=
  fun a b => Int.decLe _ _

/-- One source in variant C's `main` loop (lines 690–703): parse, tag,
hash; a failed fetch (caught exception) contributes nothing. -/
def fetchParseC (src : String × Option (List RawItemC)) : List JobC :=
  match src.2 with
  | none => []
  | some items =>
    (items.map (processItemC src.1)).map fun j =>
      let j1 := tagJobC j
      { j1 with hash := makeHashC j1 }

/-- Variant C's `main` (lines 687–720) up to the jobs array: collect,
dedupe by hash, sort newest-first with `toTs`. -/
def mainCJobs (dp : String → Option Int) (now : Int)
    (srcs : List (String × Option (List RawItemC))) : List JobC :=
  List.insertionSort (newerC dp now)
    (dedupeBy (fun j => j.hash) [] ((srcs.map fetchParseC).flatten))

/-! ### Transport (variant C `fetchText`, lines 641–669) -/

/-- One HTTP response: status, optional `Location` header, body text. -/
structure HResp where
  status : Nat
  location : Option String
  body : String
deriving DecidableEq, Repr

/-- The possible outcomes of `fetchText` (thrown errors as values). -/
inductive FetchOutcome where
  | ok (body : String)
  | redirectNoLocation (url : String)
  | tooManyRedirects (url : String)
  | httpError (url : String) (status : Nat)
  | noResponse
deriving DecidableEq, Repr

/-- `[301, 302, 307, 308].includes(status)`. -/
def isRedirectStatus (s : Nat) : Bool :=
  s = 301 || s = 302 || s = 307 || s = 308

/-- `res.ok`: status in the 2xx range. -/
def isOkStatus (s : Nat) : Bool :=
  200 ≤ s && s < 300

/-- `fetchText(url, depth)` against a network modelled as a trace of
responses consumed one per `fetch` call; `resolve loc url` models
`new URL(loc, url).toString()`.  The 500 ms backoff before the 403 retry
is a pure delay and is modelled as a no-op.  `noResponse` marks an
exhausted trace (the JS runtime would still be awaiting the network). -/
def fetchText (resolve : String → String → String) :
    List HResp → String → Nat → FetchOutcome
  | [], _, _ => .noResponse
  | r :: rest, url, depth =>
    if isRedirectStatus r.status then
      match r.location with
      | none => .redirectNoLocation url
      | some loc =>
        if depth > 5 then .tooManyRedirects url
        else fetchText resolve rest (resolve loc url) (depth + 1)
    else if r.status = 403 ∧ depth = 0 then
      fetchText resolve rest url (depth + 1)
    else if isOkStatus r.status then .ok r.body
    else .httpError url r.status

/-! ### Derived definitions and concrete fixtures used by the theorems -/

/-- The closed set of category names `categorizeJob` can return. -/
def categoriesList : List String :=
  ["customer-service", "marketing", "sales", "writing", "design", "development",
   "data", "virtual-assistant", "project-management", "other"]

/-- A date parser that accepts nothing (every string is `NaN`). -/
def dpNone : String → Option Int :=
  fun _ => none

/-- A date parser accepting exactly the RFC-822 date of the example feed. -/
def dpEx : String → Option Int :=
  fun s => if s = "Mon, 01 Jan 2024 00:00:00 GMT" then some 1704067200 else none

/-- URL resolution that ignores the base (absolute `Location` headers). -/
def resolveId : String → String → String :=
  fun loc _ => loc

/-- The spec's example feed item (§8 of the specification). -/
def itEx : RawItem :=
  { title := "Customer Support Rep", link := "https://example.com/job/1?ref=abc",
    guid := "", pubDate := "Mon, 01 Jan 2024 00:00:00 GMT", date := "",
    description := "Entry level support role.", contentEncoded := "", summary := "",
    categories := [] }

/-- The Job Record variant A produces for `itEx`. -/
def jEx : JobA :=
  { title := "Customer Support Rep", company := none, source := "S",
    source_url := "https://example.com/job/1", posted_at := 1704067200,
    tags := ["entry-level", "full-time", "customer-service", "no-experience"],
    location := "Remote", excerpt := "Entry level support role.",
    category := "customer-service" }

/-- A beginner-friendly item whose text never mentions remote work. -/
def itNoRemote : RawItem :=
  { title := "Junior Clerk", link := "http://jobs.example/1",
    guid := "", pubDate := "", date := "",
    description := "Filing papers", contentEncoded := "", summary := "",
    categories := [] }

/-- The Job Record variant B produces for `itNoRemote`. -/
def jBNoRemote : JobB :=
  { title := "Junior Clerk", company := none, source := "S",
    source_url := "http://jobs.example/1", posted_at := some 0,
    tags := ["entry-level", "junior", "full-time", "remote"],
    location := "Remote", excerpt := "Filing papers" }

/-- A variant C feed item with every tag absent. -/
def itEmptyC : RawItemC :=
  { title := "", link := "", pubDate := "", updated := "", dcDate := "",
    description := "" }

/-- An item whose sanitized description is 210 characters long. -/
def itLong : RawItem :=
  { title := "Junior Helper", link := "http://jobs.example/2",
    guid := "", pubDate := "", date := "",
    description := strOf (List.replicate 210 'a'), contentEncoded := "",
    summary := "", categories := [] }

/-- Two variant A records, identical in title and `source_url`, differing
only in the inferred company. -/
def jA1 : JobA :=
  { title := "Designer", company := some "Acme", source := "S1",
    source_url := "http://u", posted_at := 0, tags := [], location := "Remote",
    excerpt := "", category := "other" }

/-- See `jA1`: same title and URL, different company. -/
def jA2 : JobA :=
  { title := "Designer", company := some "Blob", source := "S2",
    source_url := "http://u", posted_at := 0, tags := [], location := "Remote",
    excerpt := "", category := "other" }

/-- Two variant B records whose titles differ only in case. -/
def jB1 : JobB :=
  { title := "Designer", company := none, source := "S1",
    source_url := "http://u", posted_at := some 0, tags := [],
    location := "Remote", excerpt := "" }

/-- See `jB1`: the same title lower-cased. -/
def jB2 : JobB :=
  { title := "designer", company := none, source := "S2",
    source_url := "http://u", posted_at := some 0, tags := [],
    location := "Remote", excerpt := "" }

/-- An HTTP 403 response. -/
def resp403 : HResp :=
  { status := 403, location := none, body := "" }

/-- A 301 redirect pointing at `u`. -/
def resp301 (u : String) : HResp :=
  { status := 301, location := some u, body := "" }

/-- A 200 response with body `b`. -/
def resp200 (b : String) : HResp :=
  { status := 200, location := none, body := b }

/-- Six consecutive redirects, then success: the trace the transport
follows to completion even though more than five redirects occur. -/
def trace6 : List HResp :=
  [resp301 "u1", resp301 "u2", resp301 "u3", resp301 "u4", resp301 "u5",
   resp301 "u6", resp200 "done"]

/-- Seven consecutive redirects. -/
def trace7 : List HResp :=
  [resp301 "u1", resp301 "u2", resp301 "u3", resp301 "u4", resp301 "u5",
   resp301 "u6", resp301 "u7"]

/-- A small job list for witness instantiations. -/
def demoJobs : List JobA :=
  [jA1, { jA2 with posted_at := 5 }, jEx]

/-! ### Helper lemmas: deduplication -/

theorem dedupeBy_sublist {α : Type} (key : α → String) :
    ∀ (seen : List String) (l : List α), (dedupeBy key seen l).Sublist l := by
  intro seen l
  induction l generalizing seen with
  | nil => simp [dedupeBy]
  | cons j js ih =>
    unfold dedupeBy
    split
    · exact (ih seen).cons j
    · exact (ih (key j :: seen)).cons₂ j

theorem dedupeBy_nodup_aux {α : Type} (key : α → String) :
    ∀ (seen : List String) (l : List α),
      ((dedupeBy key seen l).map key).Nodup ∧
        ∀ x ∈ dedupeBy key seen l, key x ∉ seen := by
  intro seen l
  induction l generalizing seen with
  | nil => simp [dedupeBy]
  | cons j js ih =>
    unfold dedupeBy
    split
    · rename_i hc
      exact ⟨(ih seen).1, fun x hx => (ih seen).2 x hx⟩
    · rename_i hc
      have hmem : key j ∉ seen := by
        intro h
        exact hc (by simpa using h)
      constructor
      · refine List.nodup_cons.2 ⟨?_, (ih (key j :: seen)).1⟩
        intro h
        obtain ⟨x, hx, hkx⟩ := List.mem_map.1 h
        exact (ih (key j :: seen)).2 x hx (by simp [hkx])
      · intro x hx
        rcases List.mem_cons.1 hx with rfl | hx
        · exact hmem
        · intro h
          exact (ih (key j :: seen)).2 x hx (List.mem_cons_of_mem _ h)

theorem dedupeBy_covers {α : Type} (key : α → String) :
    ∀ (seen : List String) (l : List α) (x : α), x ∈ l →
      key x ∈ seen ∨ ∃ y ∈ dedupeBy key seen l, key y = key x := by
  intro seen l
  induction l generalizing seen with
  | nil => intro x hx; cases hx
  | cons j js ih =>
    intro x hx
    unfold dedupeBy
    rcases List.mem_cons.1 hx with rfl | hx
    · split
      · rename_i hc
        exact Or.inl (by simpa using hc)
      · exact Or.inr ⟨x, by simp⟩
    · split
      · rename_i hc
        exact ih seen x hx
      · rcases ih (key j :: seen) x hx with h | ⟨y, hy, hky⟩
        · rcases List.mem_cons.1 h with h | h
          · exact Or.inr ⟨j, by simp, h.symm⟩
          · exact Or.inl h
        · exact Or.inr ⟨y, List.mem_cons_of_mem _ hy, hky⟩

theorem dedupeBy_first {α : Type} (key : α → String) :
    ∀ (l₁ : List α) (seen : List String) (l₂ : List α) (j : α),
      key j ∉ seen → (∀ y ∈ l₁, key y ≠ key j) →
      j ∈ dedupeBy key seen (l₁ ++ j :: l₂) := by
  intro l₁
  induction l₁ with
  | nil =>
    intro seen l₂ j hseen _
    show j ∈ dedupeBy key seen (j :: l₂)
    unfold dedupeBy
    split
    · rename_i hc
      exact absurd (by simpa using hc) hseen
    · exact List.mem_cons_self _ _
  | cons y ys ih =>
    intro seen l₂ j hseen hne
    have hyj : key y ≠ key j := hne y (List.mem_cons_self _ _)
    show j ∈ dedupeBy key seen (y :: (ys ++ j :: l₂))
    unfold dedupeBy
    split
    · exact ih seen l₂ j hseen (fun z hz => hne z (List.mem_cons_of_mem _ hz))
    · refine List.mem_cons_of_mem _ (ih (key y :: seen) l₂ j ?_
        (fun z hz => hne z (List.mem_cons_of_mem _ hz)))
      intro h
      rcases List.mem_cons.1 h with h | h
      · exact hyj h.symm
      · exact hseen h

/-! ### Helper lemmas: categories and tags -/

set_option maxHeartbeats 1000000 in
theorem categorizeJob_mem (t d : String) (tags : List String) :
    categorizeJob t d tags ∈ categoriesList := by
  simp only [categorizeJob]
  split_ifs <;> decide

set_option maxHeartbeats 1000000 in
theorem generateTags_nodup (t d c : String) (hc : c ∈ categoriesList) :
    (generateTags t d c).Nodup := by
  refine List.Nodup.sublist (List.take_sublist _ _) ?_
  fin_cases hc <;> split_ifs <;> decide

theorem generateTags_length_le (t d c : String) :
    (generateTags t d c).length ≤ 6 := by
  simpa [generateTags] using List.length_take_le 6 _

set_option maxHeartbeats 2000000 in
theorem generateTags_remote_iff (t d c : String) (hc : c ∈ categoriesList) :
    ("remote" ∈ generateTags t d c) ↔ remoteTestA (tagText t d) = true := by
  fin_cases hc <;> simp only [generateTags] <;> split_ifs <;> simp_all

/-! ### Helper lemmas: the variant A parser -/

set_option maxHeartbeats 1600000 in
theorem processItemA_some {dp : String → Option Int} {now : Int} {nm : String}
    {it : RawItem} {j : JobA} (h : processItemA dp now nm it = some j) :
    j.title = titleOfA it ∧ titleOfA it ≠ "" ∧
      j.source_url = linkOfA it ∧ starts "http".data (linkOfA it).data = true ∧
      j.tags = generateTags (titleOfA it) (descOfA it)
        (categorizeJob (titleOfA it) (descOfA it) (it.categories.map stripA)) ∧
      j.posted_at = parseDateA dp now (jsOr (stripA it.pubDate) (stripA it.date)) ∧
      j.excerpt = strOf ((descOfA it).data.take 200) := by
  simp only [processItemA] at h
  split_ifs at h with h1 h2 h3
  have hj := Option.some.inj h
  subst hj
  refine ⟨?_, ?_, ?_, ?_, ?_, ?_, ?_⟩
  · with_reducible rfl
  · intro he
    exact h2 (by simp [he])
  · with_reducible rfl
  · simpa using h1
  · with_reducible rfl
  · with_reducible rfl
  · with_reducible rfl

/-! ### Helper lemmas: sorting relations -/

instance : IsTotal JobA newerA :=
  ⟨fun a b => le_total b.posted_at a.posted_at⟩

instance : IsTrans JobA newerA :=
  ⟨fun _ _ _ hab hbc => le_trans hbc hab⟩

instance (dp : String → Option Int) (now : Int) : IsTotal JobC (newerC dp now) :=
  ⟨fun a b => le_total (toTs dp now b.posted_at) (toTs dp now a.posted_at)⟩

instance (dp : String → Option Int) (now : Int) : IsTrans JobC (newerC dp now) :=
  ⟨fun _ _ _ hab hbc => le_trans hbc hab⟩

/-! ### Helper lemmas: lengths of the whitespace normalisers -/

theorem collapseWsAux_length_le : ∀ (b : Bool) (l : List Char),
    (collapseWsAux b l).length ≤ l.length := by
  intro b l
  induction l generalizing b with
  | nil => simp [collapseWsAux]
  | cons c cs ih =>
    unfold collapseWsAux
    split
    · split
      · exact le_trans (ih true) (Nat.le_succ _)
      · simpa using ih true
    · simpa using ih false

theorem trimJs_length_le (l : List Char) : (trimJs l).length ≤ l.length := by
  unfold trimJs
  calc ((l.dropWhile isJsWs).reverse.dropWhile isJsWs).reverse.length
      = ((l.dropWhile isJsWs).reverse.dropWhile isJsWs).length := List.length_reverse _
    _ ≤ (l.dropWhile isJsWs).reverse.length :=
        (List.dropWhile_suffix _).sublist.length_le
    _ = (l.dropWhile isJsWs).length := List.length_reverse _
    _ ≤ l.length := (List.dropWhile_suffix _).sublist.length_le

/-! ### Helper lemmas: the variant B parser -/

theorem tagsB_remote (fullText : List Char) : "remote" ∈ tagsB fullText := by
  unfold tagsB
  simp only [List.mem_append, List.mem_singleton]
  tauto

theorem processItemB_some {dp : String → Option Int} {now : Int} {nm : String}
    {it : RawItem} {j : JobB} (h : processItemB dp now nm it = some j) :
    j.tags = tagsB (lowerL (stripB it.title ++ " " ++
        stripB (jsOr it.description it.summary)).data) ∧
      j.excerpt = excerptB (stripB (jsOr it.description it.summary)) ∧
      stripB it.title ≠ "" := by
  simp only [processItemB] at h
  split at h
  · exact absurd h (by simp)
  · rename_i hcond
    have hj := Option.some.inj h
    subst hj
    refine ⟨?_, ?_, ?_⟩
    · with_reducible rfl
    · with_reducible rfl
    · intro he
      exact hcond (by simp [he])

theorem excerptB_spec (d : String) :
    (excerptB d).length ≤ 153 ∧
      (d.length > 150 → ∃ p : String, excerptB d = p ++ "..." ∧ p.length ≤ 150) ∧
      (d.length ≤ 150 → excerptB d = strOf (trimJs (collapseWs d.data))) := by
  have hclean : (strOf ((trimJs (collapseWs d.data)).take 150)).length ≤ 150 := by
    simpa [strOf, String.length] using List.length_take_le 150 (trimJs (collapseWs d.data))
  unfold excerptB
  by_cases h : d.length > 150
  · rw [if_pos h]
    refine ⟨?_, fun _ => ⟨_, rfl, hclean⟩, fun hle => absurd hle (by omega)⟩
    rw [String.length_append]
    have h3 : ("..." : String).length = 3 := rfl
    omega
  · rw [if_neg h]
    refine ⟨le_trans hclean (by norm_num), fun hgt => absurd hgt h, fun hle => ?_⟩
    have hlen : (trimJs (collapseWs d.data)).length ≤ 150 := by
      refine le_trans (trimJs_length_le _) (le_trans (collapseWsAux_length_le false _) ?_)
      exact hle
    rw [List.take_of_length_le hlen]

/-! ### Helper lemmas: the transport -/

theorem fetchText_cons (resolve : String → String → String) (r : HResp)
    (rest : List HResp) (url : String) (depth : Nat) :
    fetchText resolve (r :: rest) url depth =
      if isRedirectStatus r.status then
        match r.location with
        | none => .redirectNoLocation url
        | some loc =>
          if depth > 5 then .tooManyRedirects url
          else fetchText resolve rest (resolve loc url) (depth + 1)
      else if r.status = 403 ∧ depth = 0 then
        fetchText resolve rest url (depth + 1)
      else if isOkStatus r.status then .ok r.body
      else .httpError url r.status := rfl

theorem fetchText_redirect_step (resolve : String → String → String)
    (r : HResp) (rest : List HResp) (url : String) (d : Nat) (loc : String)
    (hr : isRedirectStatus r.status = true) (hl : r.location = some loc)
    (hd : d ≤ 5) :
    fetchText resolve (r :: rest) url d =
      fetchText resolve rest (resolve loc url) (d + 1) := by
  rw [fetchText_cons, if_pos hr, hl]
  show (if d > 5 then FetchOutcome.tooManyRedirects url
    else fetchText resolve rest (resolve loc url) (d + 1)) = _
  rw [if_neg (by omega : ¬d > 5)]

theorem fetchText_redirect_stop (resolve : String → String → String)
    (r : HResp) (rest : List HResp) (url : String) (loc : String)
    (hr : isRedirectStatus r.status = true) (hl : r.location = some loc) :
    fetchText resolve (r :: rest) url 6 = .tooManyRedirects url := by
  rw [fetchText_cons, if_pos hr, hl]
  show (if (6 : Nat) > 5 then FetchOutcome.tooManyRedirects url
    else fetchText resolve rest (resolve loc url) (6 + 1)) =
      FetchOutcome.tooManyRedirects url
  rw [if_pos (by omega : (6 : Nat) > 5)]

theorem fetchText_take_aux (resolve : String → String → String) :
    ∀ (rs : List HResp) (url : String) (d : Nat), d ≤ 6 →
      fetchText resolve rs url d = fetchText resolve (rs.take (7 - d)) url d := by
  intro rs
  induction rs with
  | nil => intro url d _; simp
  | cons r rest ih =>
    intro url d hd
    have h7 : 7 - d = (6 - d) + 1 := by omega
    rw [h7, List.take_succ_cons, fetchText_cons, fetchText_cons]
    by_cases hr : isRedirectStatus r.status = true
    · rw [if_pos hr, if_pos hr]
      cases hl : r.location with
      | none => rfl
      | some loc =>
        show (if d > 5 then FetchOutcome.tooManyRedirects url
            else fetchText resolve rest (resolve loc url) (d + 1)) =
          if d > 5 then FetchOutcome.tooManyRedirects url
            else fetchText resolve (rest.take (6 - d)) (resolve loc url) (d + 1)
        by_cases h5 : d > 5
        · rw [if_pos h5, if_pos h5]
        · rw [if_neg h5, if_neg h5]
          have hd1 : d + 1 ≤ 6 := by omega
          have h6 : 6 - d = 7 - (d + 1) := by omega
          rw [h6]
          exact ih (resolve loc url) (d + 1) hd1
    · rw [if_neg hr, if_neg hr]
      by_cases h403 : r.status = 403 ∧ d = 0
      · rw [if_pos h403, if_pos h403, h403.2]
        have h6 : (6 : Nat) - 0 = 7 - 1 := rfl
        rw [h6]
        exact ih url 1 (by omega)
      · rw [if_neg h403, if_neg h403]

/-! ### Helper lemmas: miscellaneous -/

theorem mainA_jobs (dp : String → Option Int) (now : Int)
    (srcs : List (String × Option (List RawItem))) :
    (mainA dp now srcs).jobs =
      sortAndLimit (dedupeA ((srcs.map (fetchParseA dp now)).flatten)) := by
  unfold mainA
  with_reducible rfl

theorem parseDateA_cases (dp : String → Option Int) (now : Int) (s : String) :
    parseDateA dp now s = now ∨ ∃ t, dp s = some t ∧ parseDateA dp now s = t := by
  unfold parseDateA
  split_ifs with h1
  · exact Or.inl rfl
  · cases hdp : dp s with
    | none => exact Or.inl rfl
    | some t => exact Or.inr ⟨t, rfl, rfl⟩

theorem fetchText_403_retry (resolve : String → String → String)
    (rest : List HResp) (url : String) :
    fetchText resolve (resp403 :: rest) url 0 = fetchText resolve rest url 1 := by
  rw [fetchText_cons]
  rw [if_neg (by decide : ¬isRedirectStatus resp403.status = true)]
  rw [if_pos (⟨rfl, rfl⟩ : resp403.status = 403 ∧ 0 = 0)]

theorem strOf_length (l : List Char) : (strOf l).length = l.length :=
  rfl

theorem string_length_data (s : String) : s.length = s.data.length := by
  cases s
  rfl

theorem strOf_data (s : String) : strOf s.data = s :=
  rfl

theorem ok_not_redirect (s : Nat) (h : isOkStatus s = true) :
    isRedirectStatus s = false := by
  simp only [isOkStatus, Bool.and_eq_true, decide_eq_true_eq] at h
  simp only [isRedirectStatus, Bool.or_eq_false_iff, decide_eq_false_iff_not]
  omega

/-! ### Claim theorems -/

/-- Claim C10: company extraction in the main pipeline variant is a
function of the title alone — for every title and any two description
strings, `extractCompany` returns the same result, so records with equal
titles always receive equal companies. -/
theorem c10_extractCompany_ignores_description :
    ∀ (t d₁ d₂ : String), extractCompany t d₁ = extractCompany t d₂ :=
  fun _ _ _ => rfl

/-- Claim C6, counterexample: the main variant's `strip` leaves `&nbsp;`
and `&mdash;` untouched (its entity table stops at `&#39;`), so the
sanitizer does not decode the claimed fixed entity set; variant B's
`strip` does decode them. -/
theorem c6_counterexample :
    stripA "a&nbsp;b" = "a&nbsp;b" ∧
      containsL "&nbsp;".data (stripA "a&nbsp;b").data = true ∧
      stripA "x&mdash;y" = "x&mdash;y" ∧
      stripB "a&nbsp;b" = "a b" := by decide

/-- Claim C6, amended: both sanitizers are total with empty output on
empty or undefined input; both decode `&amp;`, `&lt;`, `&gt;`, `&quot;`
and `&#39;`; only variant B's `strip` additionally decodes `&nbsp;`,
`&mdash;`, `&ndash;` and `&hellip;`. -/
theorem c6_sanitizer_decodes :
    stripOptA none = "" ∧ stripOptB none = "" ∧ stripA "" = "" ∧ stripB "" = "" ∧
      stripA "a&amp;b" = "a&b" ∧ stripA "a&lt;b" = "a<b" ∧
      stripA "a&gt;b" = "a>b" ∧ stripA "a&quot;b" = "a\"b" ∧
      stripA "a&#39;b" = "a'b" ∧
      stripB "a&amp;b" = "a&b" ∧ stripB "a&lt;b" = "a<b" ∧
      stripB "a&gt;b" = "a>b" ∧ stripB "a&quot;b" = "a\"b" ∧
      stripB "a&#39;b" = "a'b" ∧ stripB "a&nbsp;b" = "a b" ∧
      stripB "a&mdash;b" = "a—b" ∧ stripB "a&ndash;b" = "a–b" ∧
      stripB "a&hellip;b" = "a...b" := by decide

/-- Claim C4: a failed source contributes zero records and never aborts
the run — removing a failed source leaves the final jobs unchanged, its
name still appears in `sources`, `sources` lists every descriptor name
attempted, and `total_jobs` equals the length of the jobs array. -/
theorem c4_partial_failure :
    (∀ (dp : String → Option Int) (now : Int)
        (srcs : List (String × Option (List RawItem))),
      (mainA dp now srcs).sources = srcs.map Prod.fst ∧
        (mainA dp now srcs).total_jobs = (mainA dp now srcs).jobs.length) ∧
      (∀ (dp : String → Option Int) (now : Int)
          (pre post : List (String × Option (List RawItem))) (nm : String),
        (mainA dp now (pre ++ (nm, none) :: post)).jobs =
            (mainA dp now (pre ++ post)).jobs ∧
          nm ∈ (mainA dp now (pre ++ (nm, none) :: post)).sources) := by
  constructor
  · intro dp now srcs
    exact ⟨rfl, rfl⟩
  · intro dp now pre post nm
    constructor
    · rw [mainA_jobs, mainA_jobs]
      congr 2
      rw [List.map_append, List.map_append, List.map_cons,
        List.flatten_append, List.flatten_append, List.flatten_cons]
      have hnone : fetchParseA dp now (nm, none) = [] := rfl
      rw [hnone, List.nil_append]
    · show nm ∈ (pre ++ (nm, none) :: post).map Prod.fst
      simp

/-- Claim C2, counterexample: two records with identical title and
`source_url` do not collapse to one — in variant A a differing inferred
company splits the fingerprint, and in variant B a mere case variation of
the title does, so both survive `dedupe`. -/
theorem c2_counterexample :
    dedupeA [jA1, jA2] = [jA1, jA2] ∧ jA1.title = jA2.title ∧
      jA1.source_url = jA2.source_url ∧ jA1 ≠ jA2 ∧
      dedupeB [jB1, jB2] = [jB1, jB2] ∧
      lowerL jB1.title.data = lowerL jB2.title.data ∧
      jB1.source_url = jB2.source_url ∧ jB1 ≠ jB2 := by decide

/-- Claim C2, amended: dedupe is exhaustive and order-preserving with
respect to its actual fingerprint — normalised title, normalised company
and raw `source_url` in variant A; raw title and `source_url` in variant
B.  The output is a sublist of the input (original order kept), no two
survivors share a fingerprint, every input fingerprint is represented,
and the first record of a fingerprint survives. -/
theorem c2_dedupe_correct :
    (∀ l : List JobA, (dedupeA l).Sublist l ∧ ((dedupeA l).map keyA).Nodup) ∧
      (∀ (l : List JobA) (j : JobA), j ∈ l →
        ∃ y ∈ dedupeA l, keyA y = keyA j) ∧
      (∀ (l₁ l₂ : List JobA) (j : JobA), (∀ y ∈ l₁, keyA y ≠ keyA j) →
        j ∈ dedupeA (l₁ ++ j :: l₂)) ∧
      (∀ l : List JobB, (dedupeB l).Sublist l ∧ ((dedupeB l).map keyB).Nodup) ∧
      (∀ (l : List JobB) (j : JobB), j ∈ l →
        ∃ y ∈ dedupeB l, keyB y = keyB j) ∧
      (∀ (l₁ l₂ : List JobB) (j : JobB), (∀ y ∈ l₁, keyB y ≠ keyB j) →
        j ∈ dedupeB (l₁ ++ j :: l₂)) := by
  refine ⟨fun l => ⟨dedupeBy_sublist _ _ _, (dedupeBy_nodup_aux _ _ _).1⟩,
    ?_, ?_, fun l => ⟨dedupeBy_sublist _ _ _, (dedupeBy_nodup_aux _ _ _).1⟩, ?_, ?_⟩
  · intro l j hj
    rcases dedupeBy_covers keyA [] l j hj with h | h
    · exact absurd h (List.not_mem_nil _)
    · exact h
  · intro l₁ l₂ j hne
    exact dedupeBy_first keyA l₁ [] l₂ j (List.not_mem_nil _) hne
  · intro l j hj
    rcases dedupeBy_covers keyB [] l j hj with h | h
    · exact absurd h (List.not_mem_nil _)
    · exact h
  · intro l₁ l₂ j hne
    exact dedupeBy_first keyB l₁ [] l₂ j (List.not_mem_nil _) hne

/-- Witness for C2: the coverage part applied to a concrete duplicate pair. -/
theorem c2_witness : ∃ y ∈ dedupeA [jA1, jA2], keyA y = keyA jA1 :=
  c2_dedupe_correct.2.1 [jA1, jA2] jA1 (by decide)

/-- Claim C3: `sortAndLimit` sorts the deduplicated records newest first
(the sorted permutation is exhibited; adjacent — indeed all — index pairs
are descending), keeps at most 2000, and drops only records no newer than
every kept one; a record whose date the parser cannot handle gets the
pipeline-execution time, both through variant A's `parseDate` at
ingestion and through variant C's `toTs` at sorting, and variant C's main
sort is descending under the `toTs` key. -/
theorem c3_sort_and_limit :
    (∀ l : List JobA, ∃ s : List JobA, s.Perm l ∧ List.Sorted newerA s ∧
        sortAndLimit l = s.take 2000 ∧
        ∀ x ∈ s.take 2000, ∀ y ∈ s.drop 2000, y.posted_at ≤ x.posted_at) ∧
      (∀ l : List JobA, (sortAndLimit l).length ≤ 2000) ∧
      (∀ (l : List JobA) (a b : Fin (sortAndLimit l).length), a < b →
        ((sortAndLimit l).get b).posted_at ≤ ((sortAndLimit l).get a).posted_at) ∧
      (∀ (dp : String → Option Int) (now : Int) (s : String), dp s = none →
        toTs dp now s = now) ∧
      (∀ (dp : String → Option Int) (now : Int) (s : String), dp s = none →
        parseDateA dp now s = now) ∧
      (∀ (dp : String → Option Int) (now : Int)
          (srcs : List (String × Option (List RawItemC))),
        List.Sorted (newerC dp now) (mainCJobs dp now srcs)) := by
  refine ⟨?_, ?_, ?_, ?_, ?_, ?_⟩
  · intro l
    refine ⟨List.insertionSort newerA l, List.perm_insertionSort newerA l,
      List.sorted_insertionSort newerA l, rfl, ?_⟩
    have hs := List.sorted_insertionSort newerA l
    rw [← List.take_append_drop 2000 (List.insertionSort newerA l)] at hs
    have hp := (List.pairwise_append.1 hs).2.2
    exact fun x hx y hy => hp x hx y hy
  · intro l
    simpa [sortAndLimit] using List.length_take_le 2000 _
  · intro l a b hab
    have hsorted : List.Sorted newerA (sortAndLimit l) :=
      List.Pairwise.sublist (List.take_sublist _ _) (List.sorted_insertionSort newerA l)
    exact hsorted.rel_get_of_lt hab
  · intro dp now s h
    simp [toTs, h]
  · intro dp now s h
    unfold parseDateA
    split_ifs with h1
    · rfl
    · rw [h]
  · intro dp now srcs
    exact List.sorted_insertionSort _ _

/-- Witness for C3: the bound, an index pair and the unparsable-date
fallbacks at concrete inputs. -/
theorem c3_witness :
    (sortAndLimit demoJobs).length ≤ 2000 ∧
      toTs dpNone 7 "not a date" = 7 ∧ parseDateA dpNone 7 "not a date" = 7 ∧
      ((sortAndLimit demoJobs).get ⟨1, by decide⟩).posted_at ≤
        ((sortAndLimit demoJobs).get ⟨0, by decide⟩).posted_at :=
  ⟨c3_sort_and_limit.2.1 demoJobs,
   c3_sort_and_limit.2.2.2.1 dpNone 7 "not a date" rfl,
   c3_sort_and_limit.2.2.2.2.1 dpNone 7 "not a date" rfl,
   c3_sort_and_limit.2.2.1 demoJobs ⟨0, by decide⟩ ⟨1, by decide⟩ (by decide)⟩

/-- Claim C5, counterexample: a beginner-friendly item whose text never
mentions remote work reaches the final output of the main pipeline with
no `remote` tag (variant A only tags `remote` when the text matches
remote/anywhere/global/distributed). -/
theorem c5_counterexample :
    (mainA dpNone 0 [("S", some [itNoRemote])]).jobs.map JobA.tags =
        [["entry-level", "junior", "full-time"]] ∧
      "remote" ∉ ["entry-level", "junior", "full-time"] := by decide

/-- Claim C5, amended: variant B's parser always includes the `remote`
tag in every emitted record; variant A includes it exactly when the
combined title-and-description text matches the remote-keyword pattern. -/
theorem c5_remote_tag :
    (∀ (dp : String → Option Int) (now : Int) (nm : String) (it : RawItem)
        (j : JobB), processItemB dp now nm it = some j → "remote" ∈ j.tags) ∧
      (∀ (dp : String → Option Int) (now : Int) (nm : String) (it : RawItem)
          (j : JobA), processItemA dp now nm it = some j →
        ("remote" ∈ j.tags ↔ remoteTestA (tagText (titleOfA it) (descOfA it)) = true)) := by
  constructor
  · intro dp now nm it j h
    rw [(processItemB_some h).1]
    exact tagsB_remote _
  · intro dp now nm it j h
    have hp := processItemA_some h
    rw [hp.2.2.2.2.1]
    exact generateTags_remote_iff _ _ _ (categorizeJob_mem _ _ _)

/-- Witness for C5: the variant B record for a concrete item carries the
`remote` tag. -/
theorem c5_witness : "remote" ∈ jBNoRemote.tags :=
  c5_remote_tag.1 dpNone 0 "S" itNoRemote jBNoRemote (by decide)

set_option maxRecDepth 4000 in
/-- Claim C7, counterexample: the main variant truncates the sanitized
description at 200 characters but appends no ellipsis — a 210-character
description yields a 200-character excerpt with no `...` marker. -/
theorem c7_counterexample :
    (processItemA dpNone 0 "S" itLong).map
        (fun j => (j.excerpt, (descOfA itLong).length)) =
      some (strOf (List.replicate 200 'a'), 210) ∧
      containsL "...".data (strOf (List.replicate 200 'a')).data = false := by decide

/-- Claim C7, amended: the excerpt is the sanitized description truncated
to a fixed bound — 200 characters with no ellipsis in variant A (the
excerpt is exactly the 200-character prefix and equals the description
when it is short enough); 150 characters in variant B with `...` appended
exactly when the sanitized description exceeds 150 characters. -/
theorem c7_excerpt_truncation :
    (∀ (dp : String → Option Int) (now : Int) (nm : String) (it : RawItem)
        (j : JobA), processItemA dp now nm it = some j →
      j.excerpt = strOf ((descOfA it).data.take 200) ∧ j.excerpt.length ≤ 200 ∧
        ((descOfA it).length ≤ 200 → j.excerpt = descOfA it)) ∧
      (∀ (dp : String → Option Int) (now : Int) (nm : String) (it : RawItem)
          (j : JobB), processItemB dp now nm it = some j →
        j.excerpt.length ≤ 153 ∧
          ((stripB (jsOr it.description it.summary)).length > 150 →
            ∃ p : String, j.excerpt = p ++ "..." ∧ p.length ≤ 150) ∧
          ((stripB (jsOr it.description it.summary)).length ≤ 150 →
            j.excerpt =
              strOf (trimJs (collapseWs (stripB (jsOr it.description it.summary)).data)))) := by
  constructor
  · intro dp now nm it j h
    have he := (processItemA_some h).2.2.2.2.2.2
    refine ⟨he, ?_, ?_⟩
    · rw [he, strOf_length]
      exact List.length_take_le 200 _
    · intro hle
      have hle2 : (descOfA it).data.length ≤ 200 := by
        rw [← string_length_data]
        exact hle
      rw [he, List.take_of_length_le hle2, strOf_data]
  · intro dp now nm it j h
    have he := (processItemB_some h).2.1
    rw [he]
    exact excerptB_spec _

/-- Witness for C7: both parts applied to concrete items. -/
theorem c7_witness :
    jEx.excerpt = strOf ((descOfA itEx).data.take 200) ∧
      jBNoRemote.excerpt.length ≤ 153 :=
  ⟨(c7_excerpt_truncation.1 dpEx 99 "S" itEx jEx (by decide)).1,
   (c7_excerpt_truncation.2 dpNone 0 "S" itNoRemote jBNoRemote (by decide)).1⟩

/-- Claim C8, counterexample: the transport follows six redirects (more
than the claimed bound of five) and succeeds, and a 303 response without
a `Location` header is reported as a plain HTTP status failure, not as
the redirect-without-location error (only 301/302/307/308 enter the
redirect branch). -/
theorem c8_counterexample :
    fetchText resolveId trace6 "u0" 0 = .ok "done" ∧
      fetchText resolveId [{ status := 303, location := none, body := "" }] "u" 0 =
        .httpError "u" 303 := by decide

/-- Claim C8, amended: for the handled statuses 301/302/307/308, a
missing `Location` fails with the redirect-without-location error at any
depth; seven consecutive locatable redirects from depth 0 fail with the
too-many-redirects error (the hop bound is six follows, not five); and
the loop terminates after inspecting at most seven responses. -/
theorem c8_redirect_policy :
    (∀ (resolve : String → String → String) (r : HResp) (rest : List HResp)
        (url : String) (d : Nat), isRedirectStatus r.status = true →
      r.location = none →
      fetchText resolve (r :: rest) url d = .redirectNoLocation url) ∧
      (∀ (resolve : String → String → String) (r0 r1 r2 r3 r4 r5 r6 : HResp)
          (rest : List HResp) (url : String),
        (∀ r ∈ [r0, r1, r2, r3, r4, r5, r6],
          isRedirectStatus r.status = true ∧ r.location.isSome = true) →
        ∃ u, fetchText resolve (r0 :: r1 :: r2 :: r3 :: r4 :: r5 :: r6 :: rest)
          url 0 = .tooManyRedirects u) ∧
      (∀ (resolve : String → String → String) (rs : List HResp) (url : String),
        fetchText resolve rs url 0 = fetchText resolve (rs.take 7) url 0) := by
  refine ⟨?_, ?_, ?_⟩
  · intro resolve r rest url d hr hl
    rw [fetchText_cons, if_pos hr, hl]
  · intro resolve r0 r1 r2 r3 r4 r5 r6 rest url hmem
    have h0 := hmem r0 (by simp)
    have h1 := hmem r1 (by simp)
    have h2 := hmem r2 (by simp)
    have h3 := hmem r3 (by simp)
    have h4 := hmem r4 (by simp)
    have h5 := hmem r5 (by simp)
    have h6 := hmem r6 (by simp)
    obtain ⟨l0, hl0⟩ := Option.isSome_iff_exists.1 h0.2
    obtain ⟨l1, hl1⟩ := Option.isSome_iff_exists.1 h1.2
    obtain ⟨l2, hl2⟩ := Option.isSome_iff_exists.1 h2.2
    obtain ⟨l3, hl3⟩ := Option.isSome_iff_exists.1 h3.2
    obtain ⟨l4, hl4⟩ := Option.isSome_iff_exists.1 h4.2
    obtain ⟨l5, hl5⟩ := Option.isSome_iff_exists.1 h5.2
    obtain ⟨l6, hl6⟩ := Option.isSome_iff_exists.1 h6.2
    refine ⟨resolve l5 (resolve l4 (resolve l3 (resolve l2 (resolve l1
      (resolve l0 url))))), ?_⟩
    rw [fetchText_redirect_step resolve r0 _ _ 0 l0 h0.1 hl0 (by omega)]
    rw [fetchText_redirect_step resolve r1 _ _ 1 l1 h1.1 hl1 (by omega)]
    rw [fetchText_redirect_step resolve r2 _ _ 2 l2 h2.1 hl2 (by omega)]
    rw [fetchText_redirect_step resolve r3 _ _ 3 l3 h3.1 hl3 (by omega)]
    rw [fetchText_redirect_step resolve r4 _ _ 4 l4 h4.1 hl4 (by omega)]
    rw [fetchText_redirect_step resolve r5 _ _ 5 l5 h5.1 hl5 (by omega)]
    exact fetchText_redirect_stop resolve r6 rest _ l6 h6.1 hl6
  · intro resolve rs url
    exact fetchText_take_aux resolve rs url 0 (by omega)

/-- Witness for C8: the two failure modes at concrete traces. -/
theorem c8_witness :
    fetchText resolveId [{ status := 301, location := none, body := "" }] "u" 0 =
        .redirectNoLocation "u" ∧
      ∃ u, fetchText resolveId trace7 "x" 0 = .tooManyRedirects u :=
  ⟨c8_redirect_policy.1 resolveId { status := 301, location := none, body := "" }
      [] "u" 0 (by decide) rfl,
   c8_redirect_policy.2.1 resolveId (resp301 "u1") (resp301 "u2") (resp301 "u3")
      (resp301 "u4") (resp301 "u5") (resp301 "u6") (resp301 "u7") [] "x"
      (by decide)⟩

/-- Claim C9, counterexample: the retry after a first-attempt 403 is not
surfaced as an error for every non-2xx response — a 301 redirect on the
retry is followed (a third response is consumed and the fetch succeeds),
even though 301 is not a 2xx status. -/
theorem c9_counterexample :
    fetchText resolveId [resp403, resp301 "u2", resp200 "ok!"] "u1" 0 = .ok "ok!" ∧
      isOkStatus 301 = false := by decide

/-- Claim C9, amended: a 403 on the first attempt is retried exactly
once (the 500 ms delay is a pure wait, outside the embedding): a 2xx on
the retry succeeds; a second 403 is surfaced as the HTTP error without
consulting any further response; and any other non-2xx, non-redirect
status on the retry is surfaced as its HTTP error. -/
theorem c9_retry_once :
    (∀ (resolve : String → String → String) (rest : List HResp) (url : String)
        (r : HResp), isOkStatus r.status = true →
      fetchText resolve (resp403 :: r :: rest) url 0 = .ok r.body) ∧
      (∀ (resolve : String → String → String) (rest : List HResp) (url : String),
        fetchText resolve (resp403 :: resp403 :: rest) url 0 = .httpError url 403) ∧
      (∀ (resolve : String → String → String) (rest : List HResp) (url : String)
          (r : HResp), isRedirectStatus r.status = false →
        isOkStatus r.status = false →
        fetchText resolve (resp403 :: r :: rest) url 0 = .httpError url r.status) := by
  refine ⟨?_, ?_, ?_⟩
  · intro resolve rest url r hok
    rw [fetchText_403_retry, fetchText_cons]
    rw [if_neg (by simp [ok_not_redirect r.status hok])]
    rw [if_neg (by simp : ¬(r.status = 403 ∧ 1 = 0))]
    rw [if_pos hok]
  · intro resolve rest url
    rw [fetchText_403_retry, fetchText_cons]
    rw [if_neg (by decide : ¬isRedirectStatus resp403.status = true)]
    rw [if_neg (by simp : ¬(resp403.status = 403 ∧ 1 = 0))]
    rw [if_neg (by decide : ¬isOkStatus resp403.status = true)]
    rfl
  · intro resolve rest url r hr hok
    rw [fetchText_403_retry, fetchText_cons]
    rw [if_neg (by simp [hr])]
    rw [if_neg (by simp : ¬(r.status = 403 ∧ 1 = 0))]
    rw [if_neg (by simp [hok])]

/-- Witness for C9: a concrete 403-then-200 trace succeeds with the
retried body. -/
theorem c9_witness :
    fetchText resolveId [resp403, resp200 "body"] "u" 0 = .ok "body" :=
  c9_retry_once.1 resolveId [] "u" (resp200 "body") rfl

/-- Claim C1, counterexample: the `parseGenericRSS` pipeline (variant C)
performs no title/link validation — an item with no fields at all still
produces a record in the final sorted jobs list, with empty title and an
empty (non-absolute) `source_url`. -/
theorem c1_counterexample :
    (mainCJobs dpNone 0 [("S", some [itEmptyC])]).map
        (fun j => (j.title, j.source_url)) = [("", "")] := by decide

/-- Claim C1, amended: in the main (`rssToItems`) pipeline every record
of the final jobs collection has a non-empty title, a `source_url`
beginning with `http`, duplicate-free tags of length at most six, and a
`posted_at` that is either a genuinely parsed timestamp or the ingestion
time (hence always valid); records failing the title or link checks are
dropped by the parser.  The `parseGenericRSS` variant emits records
without these checks. -/
theorem c1_record_invariants :
    (∀ (dp : String → Option Int) (now : Int)
        (srcs : List (String × Option (List RawItem))) (j : JobA),
      j ∈ (mainA dp now srcs).jobs →
        j.title ≠ "" ∧ starts "http".data j.source_url.data = true ∧
          j.tags.Nodup ∧ j.tags.length ≤ 6 ∧
          (j.posted_at = now ∨ ∃ s, dp s = some j.posted_at)) ∧
      (∀ (dp : String → Option Int) (now : Int) (nm : String) (it : RawItem),
        titleOfA it = "" ∨ starts "http".data (linkOfA it).data = false →
        processItemA dp now nm it = none) := by
  constructor
  · intro dp now srcs j hj
    rw [mainA_jobs] at hj
    have hj1 : j ∈ List.insertionSort newerA
        (dedupeA ((srcs.map (fetchParseA dp now)).flatten)) :=
      List.take_subset _ _ hj
    have hj2 : j ∈ dedupeA ((srcs.map (fetchParseA dp now)).flatten) :=
      (List.mem_insertionSort newerA).1 hj1
    have hj3 : j ∈ (srcs.map (fetchParseA dp now)).flatten :=
      (dedupeBy_sublist keyA [] _).subset hj2
    obtain ⟨l, hl, hjl⟩ := List.mem_flatten.1 hj3
    obtain ⟨src, _, rfl⟩ := List.mem_map.1 hl
    rcases src with ⟨nm, body⟩
    cases body with
    | none => simp [fetchParseA] at hjl
    | some items =>
      simp only [fetchParseA, rssToItemsA] at hjl
      obtain ⟨it, _, hsome⟩ := List.mem_filterMap.1 hjl
      have hp := processItemA_some hsome
      refine ⟨?_, ?_, ?_, ?_, ?_⟩
      · rw [hp.1]
        exact hp.2.1
      · rw [hp.2.2.1]
        exact hp.2.2.2.1
      · rw [hp.2.2.2.2.1]
        exact generateTags_nodup _ _ _ (categorizeJob_mem _ _ _)
      · rw [hp.2.2.2.2.1]
        exact generateTags_length_le _ _ _
      · rw [hp.2.2.2.2.2.1]
        rcases parseDateA_cases dp now (jsOr (stripA it.pubDate) (stripA it.date))
          with h | ⟨t, hdp, ht⟩
        · exact Or.inl h
        · refine Or.inr ⟨jsOr (stripA it.pubDate) (stripA it.date), ?_⟩
          rw [ht]
          exact hdp
  · intro dp now nm it h
    simp only [processItemA]
    by_cases hlink : starts "http".data (linkOfA it).data = true
    · have htitle : titleOfA it = "" := by
        rcases h with h | h
        · exact h
        · rw [hlink] at h
          cases h
      rw [if_neg (by simp [hlink]), if_pos (by simp [htitle])]
    · rw [if_pos (by simpa using hlink)]

/-- Witness for C1: the invariants instantiated on the record the
pipeline produces for the specification's example feed item. -/
theorem c1_witness :
    jEx.title ≠ "" ∧ starts "http".data jEx.source_url.data = true ∧
      jEx.tags.Nodup ∧ jEx.tags.length ≤ 6 ∧
      (jEx.posted_at = 99 ∨ ∃ s, dpEx s = some jEx.posted_at) :=
  c1_record_invariants.1 dpEx 99 [("S", some [itEx])] jEx (by decide)
